import Mathlib

/-!
Verification of core quic-go (gQUIC-era) components against its specification.
Byte sequences are modelled as `List Nat` with values below 256; machine
integers are `Nat` with explicit truncation where the source converts.
-/

namespace QuicGo

/-- Little-endian multi-byte write, as in `utils.WriteUint16` (the repo's
`utils` byte helpers are not under src/; the byte order is pinned little-endian
by the wire test vectors in src/frames/ack_frame_new_test.go). -/
def writeUint16 (n : Nat) : List Nat :=
  [n % 256, n / 256 % 256]

/-- Little-endian 4-byte write, as in `utils.WriteUint32`. -/
def writeUint32 (n : Nat) : List Nat :=
  [n % 256, n / 256 % 256, n / 2 ^ 16 % 256, n / 2 ^ 24 % 256]

/-- `bytes.Reader.ReadByte`: consume one byte or fail at end of input. -/
def readByte : List Nat → Option (Nat × List Nat)
  | [] => none
  | b :: rest => some (b, rest)

/-- `utils.ReadUint16`, little-endian. -/
def readUint16 (bs : List Nat) : Option (Nat × List Nat) :=
  match bs with
  | b1 :: b2 :: rest => some (b1 + b2 * 256, rest)
  | _ => none

/-- `utils.ReadUint32`, little-endian. -/
def readUint32 (bs : List Nat) : Option (Nat × List Nat) :=
  match bs with
  | b1 :: b2 :: b3 :: b4 :: rest =>
      some (b1 + b2 * 256 + b3 * 2 ^ 16 + b4 * 2 ^ 24, rest)
  | _ => none

/-- `utils.ReadUintN`, reading `len` bytes little-endian. -/
def readUintN (len : Nat) (bs : List Nat) : Option (Nat × List Nat) :=
  match len, bs with
  | 0, bs => some (0, bs)
  | l + 1, b :: rest =>
      match readUintN l rest with
      | some (hi, rem) => some (b + hi * 256, rem)
      | none => none
  | _ + 1, [] => none

/-! ### Frame codec (src/frames/ack_frame.go, src/unnamed/part_009)

`AckFrame` as in src/frames/ack_frame.go: Entropy (byte), LargestObserved
(packet number), DelayTime (uint16). -/

structure AckFrame where
  entropy : Nat
  largestObserved : Nat
  delayTime : Nat
  deriving DecidableEq, Repr

/-- `AckFrame.Write` (src/frames/ack_frame.go:19-29): type byte 0x48, the
entropy byte, LargestObserved as uint32, the constant 1 as the delay time,
one timestamp (delta 0, first timestamp 0). -/
def ackFrameWrite (f : AckFrame) : List Nat :=
  0x48 :: f.entropy % 256 :: writeUint32 f.largestObserved
    ++ writeUint16 1 ++ [0x01, 0x00] ++ writeUint32 0

/-- `ParseAckFrame` (src/frames/ack_frame.go:32-122), for frames without the
NACK bit (`ackFrameWrite` always emits type byte 0x48, which has no NACK bit;
the truncated-ACK bit 0x10 makes the Go code panic, modelled as `none`). -/
def parseAckFrame (bs : List Nat) : Option (AckFrame × List Nat) := do
  let (typeByte, bs) ← readByte bs
  if typeByte % 32 / 16 = 1 then none -- truncated ACKs: Go panics
  else
    let largestObservedLen := if typeByte % 16 / 4 = 0 then 1 else 2 * (typeByte % 16 / 4)
    let (entropy, bs) ← readByte bs
    let (largestObserved, bs) ← readUintN largestObservedLen bs
    let (delayTime, bs) ← readUint16 bs
    let (numTimestamp, bs) ← readByte bs
    let (_, bs) ← readByte bs
    let (_, bs) ← readUint32 bs
    let bs ← parseAckTimestamps (numTimestamp - 1) bs
    let bs ← if typeByte % 64 / 32 = 1 then parseAckNackRanges largestObservedLen bs else some bs
    some (⟨entropy, largestObserved, delayTime⟩, bs)
where
  /-- the `numTimestamp - 1` iterations reading (delta byte, uint16 delta time) -/
  parseAckTimestamps : Nat → List Nat → Option (List Nat)
    | 0, bs => some bs
    | n + 1, bs => do
        let (_, bs) ← readByte bs
        let (_, bs) ← readUint16 bs
        parseAckTimestamps n bs
  /-- the NACK branch: one count byte, then `numRanges` blocks of
  `largestObservedLen + 1` bytes -/
  parseAckNackRanges (largestObservedLen : Nat) (bs : List Nat) : Option (List Nat) := do
    let (numRanges, bs) ← readByte bs
    skipBlocks numRanges (largestObservedLen + 1) bs
  skipBlocks : Nat → Nat → List Nat → Option (List Nat)
    | 0, _, bs => some bs
    | n + 1, k, bs =>
        if k ≤ bs.length then skipBlocks n k (bs.drop k) else none

/-- `ConnectionCloseFrame` (src/unnamed/part_009): error code (uint32) and
reason phrase (modelled as its byte sequence). -/
structure ConnectionCloseFrame where
  errorCode : Nat
  reasonPhrase : List Nat
  deriving DecidableEq, Repr

/-- `ConnectionCloseFrame.Write` (src/unnamed/part_009:55-71): type byte 0x02,
error code as uint32, reason length as uint16 (error when over 65535),
then the reason bytes. -/
def connectionCloseFrameWrite (f : ConnectionCloseFrame) : Option (List Nat) :=
  if f.reasonPhrase.length > 65535 then none
  else some (0x02 :: writeUint32 f.errorCode ++ writeUint16 f.reasonPhrase.length
    ++ f.reasonPhrase.map (· % 256))

/-- `ParseConnectionCloseFrame` (src/unnamed/part_009:20-47): skip the type
byte, read error code (uint32), reason length (uint16) and that many bytes. -/
def parseConnectionCloseFrame (bs : List Nat) : Option (ConnectionCloseFrame × List Nat) := do
  let (_, bs) ← readByte bs
  let (errorCode, bs) ← readUint32 bs
  let (reasonPhraseLen, bs) ← readUint16 bs
  if reasonPhraseLen ≤ bs.length then
    some (⟨errorCode, bs.take reasonPhraseLen⟩, bs.drop reasonPhraseLen)
  else none

lemma readUint16_writeUint16 (n : Nat) (rest : List Nat) (h : n < 2 ^ 16) :
    readUint16 (writeUint16 n ++ rest) = some (n, rest) := by
  simp only [writeUint16, readUint16, List.cons_append, List.nil_append,
    Option.some.injEq, Prod.mk.injEq, and_true]
  omega

lemma readUint32_writeUint32 (n : Nat) (rest : List Nat) (h : n < 2 ^ 32) :
    readUint32 (writeUint32 n ++ rest) = some (n, rest) := by
  simp only [writeUint32, readUint32, List.cons_append, List.nil_append,
    Option.some.injEq, Prod.mk.injEq, and_true]
  omega

lemma readUintN4_writeUint32 (n : Nat) (rest : List Nat) (h : n < 2 ^ 32) :
    readUintN 4 (writeUint32 n ++ rest) = some (n, rest) := by
  simp [writeUint32, readUintN]
  omega

/-- C2: counterexample. The claimed round-trip `parse(encode(F)) = F` fails for
ACK frames: `AckFrame.Write` emits the constant 1 as the delay time (the field
is never serialized), so writing the frame with delay time 5 and parsing the
result yields delay time 1, not 5. -/
theorem ackFrame_roundTrip_loses_delayTime :
    parseAckFrame (ackFrameWrite ⟨0, 1, 5⟩) = some (⟨0, 1, 1⟩, []) ∧
    parseAckFrame (ackFrameWrite ⟨0, 1, 5⟩) ≠ some (⟨0, 1, 5⟩, []) := by
  refine ⟨by decide, ?_⟩
  intro h
  simp only [show parseAckFrame (ackFrameWrite ⟨0, 1, 5⟩) = some (⟨0, 1, 1⟩, []) from by decide,
    Option.some.injEq, Prod.mk.injEq] at h
  exact absurd h.1 (by decide)

/-- C2 (amended): writing an in-range ACK frame and parsing the result
preserves the entropy and the largest observed packet number, but the parsed
delay time is always 1 regardless of the frame's delay time; a CONNECTION_CLOSE
frame with a reason phrase of at most 65535 bytes round-trips exactly. -/
theorem frameCodec_roundTrip_amended (a : AckFrame) (c : ConnectionCloseFrame)
    (ha1 : a.entropy < 256) (ha2 : a.largestObserved < 2 ^ 32)
    (hc1 : c.errorCode < 2 ^ 32) (hc2 : c.reasonPhrase.length ≤ 65535)
    (hc3 : ∀ b ∈ c.reasonPhrase, b < 256) :
    parseAckFrame (ackFrameWrite a) = some (⟨a.entropy, a.largestObserved, 1⟩, []) ∧
    (connectionCloseFrameWrite c).bind parseConnectionCloseFrame = some (c, []) := by
  constructor
  · simp only [ackFrameWrite, parseAckFrame, readByte, Nat.mod_eq_of_lt ha1,
      List.cons_append, List.append_assoc]
    norm_num
    rw [readUintN4_writeUint32 _ _ ha2]
    simp [readUint16, writeUint16, readUint32, writeUint32,
      parseAckFrame.parseAckTimestamps]
  · have hlen : ¬ c.reasonPhrase.length > 65535 := by omega
    have hmap : c.reasonPhrase.map (· % 256) = c.reasonPhrase := by
      conv_rhs => rw [← List.map_id c.reasonPhrase]
      exact List.map_congr_left fun b hb => Nat.mod_eq_of_lt (hc3 b hb)
    simp [connectionCloseFrameWrite, hlen, parseConnectionCloseFrame, readByte,
      readUint32_writeUint32 _ _ hc1, hmap,
      readUint16_writeUint16 _ _ (by omega : c.reasonPhrase.length < 2 ^ 16)]

/-- C2 amended witness: concrete frames satisfying the hypotheses. -/
theorem frameCodec_roundTrip_amended_witness :
    parseAckFrame (ackFrameWrite ⟨3, 70000, 9⟩) = some (⟨3, 70000, 1⟩, []) ∧
    (connectionCloseFrameWrite ⟨7, [104, 105]⟩).bind parseConnectionCloseFrame
      = some (⟨7, [104, 105]⟩, []) :=
  frameCodec_roundTrip_amended ⟨3, 70000, 9⟩ ⟨7, [104, 105]⟩
    (by decide) (by decide) (by decide) (by decide) (by decide)

/-! ### Stream send and receive (src/unnamed/part_006) -/

/-- `frames.StreamFrame` as used by src/unnamed/part_006. -/
structure StreamFrame where
  streamID : Nat
  offset : Nat
  data : List Nat
  finBit : Bool
  deriving DecidableEq, Repr

/-- The sequence of `(Offset, Data)` chunks that `stream.Write`
(src/unnamed/part_006:148-191) queues as StreamFrames for input `p`, given the
positive flow-control window sizes `windows` observed at each loop iteration
(the code waits until `SendWindowSize()` is non-zero before each chunk).
Each iteration takes `dataLen := min len(p) w` and queues `p` truncated to
`dataLen` bytes (`copy(data, p)` copies from the start of `p`), then advances
`dataWritten` and the stream's `writeOffset` by `dataLen`. -/
def streamWriteChunks (p : List Nat) :
    List Nat → Nat → Nat → List (Nat × List Nat)
  | [], _, _ => []
  | w :: ws, dataWritten, writeOffset =>
      if dataWritten < p.length then
        let dataLen := min p.length w
        (writeOffset, p.take dataLen) ::
          streamWriteChunks p ws (dataWritten + dataLen) (writeOffset + dataLen)
      else []

/-- C1 (code bug): writing `p = [1, 2]` against a flow-control window of 1 byte
per iteration queues the chunks `(offset 0, [1])` and `(offset 1, [1])`: the
second chunk repeats `p[0]` instead of carrying `p[1]`, because `stream.Write`
computes `dataLen = min(len(p), window)` and copies from the start of `p`
without skipping the `dataWritten` bytes already queued. The bytes delivered in
offset order are `[1, 1]`, not the written `[1, 2]`, contradicting the spec's
invariant that the reader observes exactly the written bytes. -/
theorem streamWrite_split_repeats_prefix :
    streamWriteChunks [1, 2] [1, 1] 0 0 = [(0, [1]), (1, [1])] ∧
    ((streamWriteChunks [1, 2] [1, 1] 0 0).map Prod.snd).flatten ≠ [1, 2] := by
  decide

/-- Errors returned by the stream/flow-control paths
(`qerr.FlowControlReceivedTooMuchData` in the source). -/
inductive QErr where
  | flowControlReceivedTooMuchData
  deriving DecidableEq, Repr

/-- Modelled from the spec: the `flowController` used by `stream`
(src/unnamed/part_006:44) is not under src/. Per the spec, each scope tracks
the highest received offset against the advertised window, and
`highest_received_offset > max_data_advertised` is a fatal protocol error. -/
structure FlowController where
  highestReceived : Nat
  receiveWindow : Nat
  deriving DecidableEq, Repr

/-- Modelled from the spec: `flowController.UpdateHighestReceived` records a
newly observed offset, keeping the maximum. -/
def FlowController.updateHighestReceived (fc : FlowController) (offset : Nat) :
    FlowController :=
  if fc.highestReceived < offset then { fc with highestReceived := offset } else fc

/-- Modelled from the spec: `flowController.CheckFlowControlViolation` reports
whether the highest received offset exceeds the advertised window. -/
def FlowController.checkFlowControlViolation (fc : FlowController) : Bool :=
  fc.receiveWindow < fc.highestReceived

/-- The receive-side state of a `stream` relevant to `AddStreamFrame`. The
`streamFrameSorter` frame queue (not under src/) is modelled as a plain list;
the claim only concerns whether the offending frame is added to it. -/
structure StreamRecvState where
  flowController : FlowController
  frameQueue : List StreamFrame
  deriving DecidableEq, Repr

/-- `stream.AddStreamFrame` (src/unnamed/part_006:204-216): update the flow
controller with the frame's end offset; on a flow-control violation return
`FlowControlReceivedTooMuchData` without queueing the frame, otherwise push the
frame onto the frame queue. -/
def streamAddStreamFrame (s : StreamRecvState) (frame : StreamFrame) :
    Option QErr × StreamRecvState :=
  let maxOffset := frame.offset + frame.data.length
  let fc := s.flowController.updateHighestReceived maxOffset
  if fc.checkFlowControlViolation then
    (some .flowControlReceivedTooMuchData, { s with flowController := fc })
  else
    (none, { flowController := fc, frameQueue := s.frameQueue ++ [frame] })

/-- C3: in any state whose flow controller is not already in violation,
`AddStreamFrame` returns `FlowControlReceivedTooMuchData` exactly for frames
whose end offset (offset plus data length) exceeds the advertised window, and
on that error the frame queue is left unchanged. -/
theorem addStreamFrame_flowControl (s : StreamRecvState) (frame : StreamFrame)
    (hinv : s.flowController.highestReceived ≤ s.flowController.receiveWindow) :
    ((streamAddStreamFrame s frame).1 = some .flowControlReceivedTooMuchData
      ↔ s.flowController.receiveWindow < frame.offset + frame.data.length) ∧
    ((streamAddStreamFrame s frame).1 = some .flowControlReceivedTooMuchData →
      (streamAddStreamFrame s frame).2.frameQueue = s.frameQueue) := by
  simp only [streamAddStreamFrame, FlowController.updateHighestReceived,
    FlowController.checkFlowControlViolation]
  by_cases h : s.flowController.highestReceived < frame.offset + frame.data.length
  · simp only [h, if_true]
    by_cases hv : s.flowController.receiveWindow < frame.offset + frame.data.length
    · simp [hv]
    · simp [hv]
  · simp only [h, if_false]
    have : ¬ s.flowController.receiveWindow < s.flowController.highestReceived := by omega
    simp [this]
    omega

/-- C3 witness: a frame ending at offset 7 against a window of 5 is rejected
and not queued. -/
theorem addStreamFrame_flowControl_witness :
    ((streamAddStreamFrame ⟨⟨0, 5⟩, []⟩ ⟨1, 4, [9, 9, 9], false⟩).1
        = some .flowControlReceivedTooMuchData
      ↔ (5 : Nat) < 4 + 3) ∧
    ((streamAddStreamFrame ⟨⟨0, 5⟩, []⟩ ⟨1, 4, [9, 9, 9], false⟩).1
        = some .flowControlReceivedTooMuchData →
      (streamAddStreamFrame ⟨⟨0, 5⟩, []⟩ ⟨1, 4, [9, 9, 9], false⟩).2.frameQueue = []) :=
  addStreamFrame_flowControl ⟨⟨0, 5⟩, []⟩ ⟨1, 4, [9, 9, 9], false⟩ (by decide)

/-! ### Received packet tracker (src/ackhandler/received_packet_handler.go) -/

/-- `ackhandler.packetHistoryEntry`: entropy bit and receive time (time is
modelled as a natural number supplied by the caller in place of `time.Now()`). -/
structure PacketHistoryEntry where
  entropyBit : Bool
  timeReceived : Nat
  deriving DecidableEq, Repr

/-- `ackhandler.EntropyAccumulator.Add` (its file is not under src/): a byte
accumulator; when the entropy bit is set, bit `packetNumber % 8` is flipped.
The claims settled here do not depend on the entropy values. -/
def entropyAdd (e : Nat) (packetNumber : Nat) (bit : Bool) : Nat :=
  if bit then (Nat.xor e (2 ^ (packetNumber % 8))) % 256 else e

/-- `frames.NackRange`. -/
structure NackRange where
  firstPacketNumber : Nat
  lastPacketNumber : Nat
  deriving DecidableEq, Repr

/-- The `frames.AckFrame` built by the received-packet handler (largest
observed, entropy byte, NACK ranges, receive time of the largest packet). -/
structure AckHandlerAckFrame where
  largestObserved : Nat
  entropy : Nat
  nackRanges : List NackRange
  packetReceivedTime : Nat
  deriving DecidableEq, Repr

/-- Errors of the ackhandler package (`ErrDuplicatePacket`,
`errInvalidPacketNumber`, `ErrMapAccess`). -/
inductive AckHandlerErr where
  | duplicatePacket
  | invalidPacketNumber
  | mapAccess
  deriving DecidableEq, Repr

/-- `ackhandler.receivedPacketHandler`; the `packetHistory` map is modelled as
an association list with distinct keys (entries are only added when absent). -/
structure ReceivedPacketHandler where
  highestInOrderObserved : Nat
  highestInOrderObservedEntropy : Nat
  largestObserved : Nat
  packetHistory : List (Nat × PacketHistoryEntry)
  currentAckFrame : Option AckHandlerAckFrame
  stateChanged : Bool
  deriving DecidableEq, Repr

/-- `receivedPacketHandler.ReceivedPacket`
(src/ackhandler/received_packet_handler.go:37-63). Returns the error (if any)
together with the resulting state, since the Go method mutates the receiver. -/
def receivedPacket (h : ReceivedPacketHandler) (packetNumber : Nat)
    (entropyBit : Bool) (now : Nat) : Option AckHandlerErr × ReceivedPacketHandler :=
  if packetNumber = 0 then (some .invalidPacketNumber, h)
  else if packetNumber ≤ h.highestInOrderObserved ∨
      (h.packetHistory.lookup packetNumber).isSome then
    (some .duplicatePacket, h)
  else
    let h := { h with stateChanged := true, currentAckFrame := none }
    let h := if h.largestObserved < packetNumber then
        { h with largestObserved := packetNumber } else h
    let h := if packetNumber = h.highestInOrderObserved + 1 then
        { h with
          highestInOrderObserved := packetNumber,
          highestInOrderObservedEntropy :=
            entropyAdd h.highestInOrderObservedEntropy packetNumber entropyBit }
      else h
    (none, { h with packetHistory :=
        h.packetHistory ++ [(packetNumber, ⟨entropyBit, now⟩)] })

/-- C4: for every packet number `n ≥ 1` and every tracker state,
`ReceivedPacket(n)` returns `ErrDuplicatePacket` exactly when `n` was already
recorded (`n ≤ highestInOrderObserved` or `n` is in the packet history), and in
that case the tracker state is unchanged. -/
theorem receivedPacket_duplicate_iff (h : ReceivedPacketHandler)
    (packetNumber : Nat) (entropyBit : Bool) (now : Nat) (hpn : 1 ≤ packetNumber) :
    ((receivedPacket h packetNumber entropyBit now).1 = some .duplicatePacket ↔
      packetNumber ≤ h.highestInOrderObserved ∨
        (h.packetHistory.lookup packetNumber).isSome) ∧
    ((receivedPacket h packetNumber entropyBit now).1 = some .duplicatePacket →
      (receivedPacket h packetNumber entropyBit now).2 = h) := by
  have h0 : packetNumber ≠ 0 := by omega
  simp only [receivedPacket, if_neg h0]
  by_cases hdup : packetNumber ≤ h.highestInOrderObserved ∨
      (h.packetHistory.lookup packetNumber).isSome
  · rw [if_pos hdup]
    exact ⟨iff_of_true rfl hdup, fun _ => rfl⟩
  · rw [if_neg hdup]
    exact ⟨iff_of_false (by simp) hdup, fun hc => absurd hc (by simp)⟩

/-- C4 witness: receiving packet 3 twice; the second call reports the
duplicate and leaves the state unchanged. -/
theorem receivedPacket_duplicate_iff_witness :
    ((receivedPacket ⟨0, 0, 3, [(3, ⟨false, 7⟩)], none, true⟩ 3 false 9).1
        = some .duplicatePacket ↔
      3 ≤ 0 ∨ (([(3, (⟨false, 7⟩ : PacketHistoryEntry))].lookup 3).isSome)) ∧
    ((receivedPacket ⟨0, 0, 3, [(3, ⟨false, 7⟩)], none, true⟩ 3 false 9).1
        = some .duplicatePacket →
      (receivedPacket ⟨0, 0, 3, [(3, ⟨false, 7⟩)], none, true⟩ 3 false 9).2
        = ⟨0, 0, 3, [(3, ⟨false, 7⟩)], none, true⟩) :=
  receivedPacket_duplicate_iff ⟨0, 0, 3, [(3, ⟨false, 7⟩)], none, true⟩ 3 false 9
    (by decide)

/-- The loop of `receivedPacketHandler.getNackRanges`
(src/ackhandler/received_packet_handler.go:79-103), counting `i` down from
`largestObserved` to `highestInOrderObserved + 1`; `fuel` is the number of
remaining iterations, so the current `i` is `hioo + fuel`. The accumulator
holds the ranges most-recently-created first (the Go code appends at the end
and decrements the last range's `FirstPacketNumber`; the final `reverse`
restores the Go order, highest range first). -/
def getNackRangesLoop (hist : List (Nat × PacketHistoryEntry)) (hioo : Nat) :
    Nat → List NackRange → Bool → Nat → List NackRange × Nat
  | 0, acc, _, entropy => (acc.reverse, entropy)
  | fuel + 1, acc, inRange, entropy =>
      let i := hioo + fuel + 1
      match hist.lookup i with
      | some p =>
          getNackRangesLoop hist hioo fuel acc false (entropyAdd entropy i p.entropyBit)
      | none =>
          if inRange then
            match acc with
            | r :: rest =>
                getNackRangesLoop hist hioo fuel
                  ({ r with firstPacketNumber := r.firstPacketNumber - 1 } :: rest)
                  true entropy
            | [] => -- unreachable: `inRange` implies the accumulator is nonempty
                getNackRangesLoop hist hioo fuel [⟨i, i⟩] true entropy
          else
            getNackRangesLoop hist hioo fuel (⟨i, i⟩ :: acc) true entropy

/-- `receivedPacketHandler.getNackRanges`. -/
def getNackRanges (h : ReceivedPacketHandler) : List NackRange × Nat :=
  getNackRangesLoop h.packetHistory h.highestInOrderObserved
    (h.largestObserved - h.highestInOrderObserved) [] false
    h.highestInOrderObservedEntropy

/-- `receivedPacketHandler.GetAckFrame`
(src/ackhandler/received_packet_handler.go:105-132). -/
def getAckFrame (h : ReceivedPacketHandler) (dequeue : Bool) :
    Except AckHandlerErr (Option AckHandlerAckFrame × ReceivedPacketHandler) :=
  if h.stateChanged = false then .ok (none, h)
  else
    let h := if dequeue then { h with stateChanged := false } else h
    match h.currentAckFrame with
    | some f => .ok (some f, h)
    | none =>
        match h.packetHistory.lookup h.largestObserved with
        | none => .error .mapAccess
        | some p =>
            let r := getNackRanges h
            let frame : AckHandlerAckFrame :=
              ⟨h.largestObserved, r.2 % 256, r.1, p.timeReceived⟩
            .ok (some frame, { h with currentAckFrame := some frame })

/-- Well-formedness of a NACK-range list as advertised by an ACK frame:
strictly descending and pairwise disjoint (each range ends strictly above
where the next begins ends), each range nonempty, and each range lying
strictly above `hioo` and at or below `largest`. -/
def nackRangesWellFormed (hioo largest : Nat) (rs : List NackRange) : Prop :=
  List.Chain' (fun r1 r2 => r2.lastPacketNumber < r1.firstPacketNumber) rs ∧
  ∀ r ∈ rs, r.firstPacketNumber ≤ r.lastPacketNumber ∧
    hioo < r.firstPacketNumber ∧ r.lastPacketNumber ≤ largest

lemma getNackRangesLoop_wf (hist : List (Nat × PacketHistoryEntry))
    (hioo bigL : Nat) :
    ∀ (fuel : Nat) (acc : List NackRange) (inRange : Bool) (entropy : Nat),
    hioo + fuel ≤ bigL →
    List.Chain' (fun a b => a.lastPacketNumber < b.firstPacketNumber) acc →
    (∀ r ∈ acc, hioo + fuel < r.firstPacketNumber ∧
      r.firstPacketNumber ≤ r.lastPacketNumber ∧ r.lastPacketNumber ≤ bigL) →
    (inRange = true →
      ∃ r rest, acc = r :: rest ∧ r.firstPacketNumber = hioo + fuel + 1) →
    nackRangesWellFormed hioo bigL
      (getNackRangesLoop hist hioo fuel acc inRange entropy).1 := by
  intro fuel
  induction fuel with
  | zero =>
      intro acc inRange entropy _ hchain hmem _
      refine ⟨?_, ?_⟩
      · simpa [getNackRangesLoop, List.chain'_reverse, flip] using hchain
      · intro r hr
        simp only [getNackRangesLoop, List.mem_reverse] at hr
        obtain ⟨h1, h2, h3⟩ := hmem r hr
        exact ⟨h2, by omega, h3⟩
  | succ fuel ih =>
      intro acc inRange entropy hle hchain hmem hin
      simp only [getNackRangesLoop]
      cases hlk : hist.lookup (hioo + fuel + 1) with
      | some p =>
          exact ih acc false _ (by omega) hchain
            (fun r hr => ⟨by have := (hmem r hr).1; omega, (hmem r hr).2⟩)
            (by simp)
      | none =>
          cases hIR : inRange with
          | false =>
              rw [if_neg (by decide)]
              refine ih (⟨hioo + fuel + 1, hioo + fuel + 1⟩ :: acc) true _ (by omega) ?_ ?_ ?_
              · refine List.chain'_cons'.mpr ⟨?_, hchain⟩
                intro b hb
                have hbmem : b ∈ acc := List.mem_of_mem_head? hb
                exact (hmem b hbmem).1
              · intro r hr
                rcases List.mem_cons.mp hr with h | h
                · subst h
                  exact ⟨Nat.lt_succ_self _, Nat.le_refl _, hle⟩
                · obtain ⟨h1, h2, h3⟩ := hmem r h
                  exact ⟨by omega, h2, h3⟩
              · intro _
                exact ⟨_, _, rfl, rfl⟩
          | true =>
              obtain ⟨r, rest, hacc, hfirst⟩ := hin hIR
              subst hacc
              rw [if_pos (by decide)]
              refine ih ({ r with firstPacketNumber := r.firstPacketNumber - 1 } :: rest)
                true _ (by omega) ?_ ?_ ?_
              · refine List.chain'_cons'.mpr ⟨?_, (List.chain'_cons'.mp hchain).2⟩
                intro b hb
                exact (List.chain'_cons'.mp hchain).1 b hb
              · intro x hx
                rcases List.mem_cons.mp hx with h | h
                · subst h
                  obtain ⟨h1, h2, h3⟩ := hmem r (List.mem_cons_self r rest)
                  refine ⟨?_, ?_, ?_⟩
                  · show hioo + fuel < r.firstPacketNumber - 1
                    omega
                  · show r.firstPacketNumber - 1 ≤ r.lastPacketNumber
                    omega
                  · show r.lastPacketNumber ≤ bigL
                    exact h3
                · obtain ⟨h1, h2, h3⟩ := hmem x (List.mem_cons_of_mem r h)
                  exact ⟨by omega, h2, h3⟩
              · intro _
                refine ⟨_, _, rfl, ?_⟩
                show r.firstPacketNumber - 1 = hioo + fuel + 1
                omega

/-- C5: whenever `GetAckFrame` computes a fresh ACK frame (the state has
changed and no frame is cached), it returns a frame whose NACK ranges are those
of `getNackRanges`: strictly descending, pairwise disjoint and nonempty, and
every range lies strictly above `highestInOrderObserved` and at or below
`largestObserved`. -/
theorem getAckFrame_nackRanges_wellFormed (h : ReceivedPacketHandler)
    (dequeue : Bool) (p : PacketHistoryEntry)
    (hsc : h.stateChanged = true) (hca : h.currentAckFrame = none)
    (hp : h.packetHistory.lookup h.largestObserved = some p)
    (hord : h.highestInOrderObserved ≤ h.largestObserved) :
    (∀ f h', getAckFrame h dequeue = .ok (some f, h') →
      f.nackRanges = (getNackRanges h).1) ∧
    (∃ f h', getAckFrame h dequeue = .ok (some f, h')) ∧
    nackRangesWellFormed h.highestInOrderObserved h.largestObserved
      (getNackRanges h).1 := by
  have hwf : nackRangesWellFormed h.highestInOrderObserved h.largestObserved
      (getNackRanges h).1 := by
    apply getNackRangesLoop_wf h.packetHistory h.highestInOrderObserved h.largestObserved
    · omega
    · exact List.chain'_nil
    · simp
    · simp
  have hca' : ({ h with stateChanged := false } : ReceivedPacketHandler).currentAckFrame
      = none := hca
  have heq : ∀ dq : Bool, ∃ f h', getAckFrame h dq = .ok (some f, h') := by
    intro dq
    cases dq with
    | false =>
        exact ⟨_, _, by simp [getAckFrame, hsc, hca, hp]; exact ⟨rfl, rfl⟩⟩
    | true =>
        exact ⟨_, _, by simp [getAckFrame, hsc, hca', hp]; exact ⟨rfl, rfl⟩⟩
  refine ⟨?_, heq dequeue, hwf⟩
  intro f h' hfh
  cases dequeue with
  | false =>
      simp [getAckFrame, hsc, hca, hp] at hfh
      rw [← hfh.1]
  | true =>
      simp [getAckFrame, hsc, hca', hp] at hfh
      rw [← hfh.1]
      simp [getNackRanges]

/-- C5 witness: state with packets 2 and 5 received, 1, 3, 4 missing. -/
theorem getAckFrame_nackRanges_wellFormed_witness :
    (∀ f h', getAckFrame ⟨0, 0, 5, [(2, ⟨false, 10⟩), (5, ⟨true, 20⟩)], none, true⟩ false
        = .ok (some f, h') →
      f.nackRanges
        = (getNackRanges ⟨0, 0, 5, [(2, ⟨false, 10⟩), (5, ⟨true, 20⟩)], none, true⟩).1) ∧
    (∃ f h', getAckFrame ⟨0, 0, 5, [(2, ⟨false, 10⟩), (5, ⟨true, 20⟩)], none, true⟩ false
        = .ok (some f, h')) ∧
    nackRangesWellFormed 0 5
      (getNackRanges ⟨0, 0, 5, [(2, ⟨false, 10⟩), (5, ⟨true, 20⟩)], none, true⟩).1 :=
  getAckFrame_nackRanges_wellFormed
    ⟨0, 0, 5, [(2, ⟨false, 10⟩), (5, ⟨true, 20⟩)], none, true⟩ false ⟨true, 20⟩
    rfl rfl (by decide) (by decide)

/-! ### Sent packet history (src/ackhandler/outgoing_packet_ack_handler.go) -/

/-- `ackhandler.Packet` as used by `SentPacket`: packet number, entropy bit,
and the accumulated entropy assigned on send. -/
structure SentPacket where
  packetNumber : Nat
  entropyBit : Bool
  entropy : Nat
  deriving DecidableEq, Repr

/-- Errors of `outgoingPacketAckHandler.SentPacket`; `panicNilEntry` models the
Go nil-map dereference `h.packetHistory[packet.PacketNumber-1].Entropy` when
that entry is absent (unreachable from the initial state). -/
inductive SentPacketErr where
  | alreadyInHistory
  | nonConsecutive
  | panicNilEntry
  deriving DecidableEq, Repr

/-- `ackhandler.outgoingPacketAckHandler`; the `packetHistory` map is modelled
as an association list. -/
structure OutgoingPacketAckHandler where
  lastSentPacketNumber : Nat
  highestInOrderAckedPacketNumber : Nat
  highestInOrderAckedEntropy : Nat
  packetHistory : List (Nat × SentPacket)
  deriving DecidableEq, Repr

/-- `outgoingPacketAckHandler.SentPacket`
(src/ackhandler/outgoing_packet_ack_handler.go:26-53): reject a packet number
already in the history or different from `lastSentPacketNumber + 1`; otherwise
accumulate the entropy and record the packet. -/
def sentPacket (h : OutgoingPacketAckHandler) (packet : SentPacket) :
    Option SentPacketErr × OutgoingPacketAckHandler :=
  if (h.packetHistory.lookup packet.packetNumber).isSome then
    (some .alreadyInHistory, h)
  else if h.lastSentPacketNumber + 1 ≠ packet.packetNumber then
    (some .nonConsecutive, h)
  else
    let base : Except SentPacketErr Nat :=
      if packet.packetNumber = 0 then .ok 0
      else if h.highestInOrderAckedPacketNumber = packet.packetNumber - 1 then
        .ok h.highestInOrderAckedEntropy
      else
        match h.packetHistory.lookup (packet.packetNumber - 1) with
        | some prev => .ok prev.entropy
        | none => .error .panicNilEntry
    match base with
    | .error e => (some e, h)
    | .ok lastE =>
        let packet := { packet with
          entropy := entropyAdd lastE packet.packetNumber packet.entropyBit }
        (none, { h with
          lastSentPacketNumber := packet.packetNumber,
          packetHistory := h.packetHistory ++ [(packet.packetNumber, packet)] })

/-- C6: `SentPacket` errors out (leaving the handler unchanged) whenever the
packet's number is already in the history or does not exceed the last sent
packet number; a successful call records exactly the number
`lastSentPacketNumber + 1`, so the recorded numbers stay strictly increasing
(each number appears at most once) and bounded by the last sent number. -/
lemma chain'_lt_append_singleton (l : List Nat) (n : Nat)
    (hl : List.Chain' (· < ·) l) (hall : ∀ k ∈ l, k < n) :
    List.Chain' (· < ·) (l ++ [n]) := by
  induction l with
  | nil => simp
  | cons a t ih =>
      rw [List.cons_append]
      refine List.chain'_cons'.mpr
        ⟨?_, ih (List.chain'_cons'.mp hl).2 (fun k hk => hall k (.tail a hk))⟩
      intro y hy
      cases t with
      | nil =>
          simp only [List.nil_append, List.head?_cons, Option.mem_def,
            Option.some.injEq] at hy
          subst hy
          exact hall a (by simp)
      | cons b t' =>
          simp only [List.cons_append, List.head?_cons, Option.mem_def,
            Option.some.injEq] at hy
          subst hy
          exact (List.chain'_cons'.mp hl).1 b (by simp)

theorem sentPacket_no_packetNumber_reuse (h : OutgoingPacketAckHandler)
    (packet : SentPacket) :
    ((h.packetHistory.lookup packet.packetNumber).isSome ∨
        packet.packetNumber ≤ h.lastSentPacketNumber →
      (sentPacket h packet).1.isSome ∧ (sentPacket h packet).2 = h) ∧
    ((sentPacket h packet).1 = none →
      packet.packetNumber = h.lastSentPacketNumber + 1 ∧
      (sentPacket h packet).2.lastSentPacketNumber = packet.packetNumber ∧
      (sentPacket h packet).2.packetHistory.map Prod.fst
        = h.packetHistory.map Prod.fst ++ [packet.packetNumber] ∧
      (List.Chain' (· < ·) (h.packetHistory.map Prod.fst) →
        (∀ k ∈ h.packetHistory.map Prod.fst, k ≤ h.lastSentPacketNumber) →
        List.Chain' (· < ·) ((sentPacket h packet).2.packetHistory.map Prod.fst) ∧
        ∀ k ∈ (sentPacket h packet).2.packetHistory.map Prod.fst,
          k ≤ (sentPacket h packet).2.lastSentPacketNumber)) := by
  by_cases hdup : (h.packetHistory.lookup packet.packetNumber).isSome
  · simp [sentPacket, hdup]
  · by_cases hseq : h.lastSentPacketNumber + 1 ≠ packet.packetNumber
    · simp [sentPacket, hdup, hseq]
    · push_neg at hseq
      cases hbase : (if packet.packetNumber = 0 then (Except.ok 0 : Except SentPacketErr Nat)
          else if h.highestInOrderAckedPacketNumber = packet.packetNumber - 1 then
            Except.ok h.highestInOrderAckedEntropy
          else
            match h.packetHistory.lookup (packet.packetNumber - 1) with
            | some prev => Except.ok prev.entropy
            | none => Except.error SentPacketErr.panicNilEntry) with
      | error e =>
          refine ⟨?_, ?_⟩
          · intro hcond
            rcases hcond with hc | hc
            · exact absurd hc hdup
            · omega
          · intro hok
            exfalso
            simp [sentPacket, hdup, hseq, hbase] at hok
      | ok lastE =>
          have hres : sentPacket h packet =
              (none, { h with
                lastSentPacketNumber := packet.packetNumber,
                packetHistory := h.packetHistory ++ [(packet.packetNumber,
                  { packet with entropy :=
                      entropyAdd lastE packet.packetNumber packet.entropyBit })] }) := by
            simp [sentPacket, hdup, hseq, hbase]
          refine ⟨?_, ?_⟩
          · intro hcond
            rcases hcond with hc | hc
            · exact absurd hc hdup
            · omega
          · intro _
            rw [hres]
            refine ⟨hseq.symm, rfl, by simp, ?_⟩
            intro hchain hbound
            simp only [List.map_append, List.map_cons, List.map_nil]
            constructor
            · exact chain'_lt_append_singleton _ _ hchain
                (fun k hk => by have := hbound k hk; omega)
            · intro k hk
              rcases List.mem_append.mp hk with hk | hk
              · have := hbound k hk
                omega
              · simp at hk
                omega

/-- C6 witness: a fresh handler accepts packet 1, then rejects a repeat of
packet 1. -/
theorem sentPacket_no_packetNumber_reuse_witness :
    (((⟨0, 0, 0, []⟩ : OutgoingPacketAckHandler).packetHistory.lookup 1).isSome ∨
        (1 : Nat) ≤ 0 →
      (sentPacket ⟨0, 0, 0, []⟩ ⟨1, false, 0⟩).1.isSome ∧
      (sentPacket ⟨0, 0, 0, []⟩ ⟨1, false, 0⟩).2 = ⟨0, 0, 0, []⟩) ∧
    ((sentPacket ⟨0, 0, 0, []⟩ ⟨1, false, 0⟩).1 = none →
      (1 : Nat) = 0 + 1 ∧
      (sentPacket ⟨0, 0, 0, []⟩ ⟨1, false, 0⟩).2.lastSentPacketNumber = 1 ∧
      (sentPacket ⟨0, 0, 0, []⟩ ⟨1, false, 0⟩).2.packetHistory.map Prod.fst
        = ([] : List (Nat × SentPacket)).map Prod.fst ++ [1] ∧
      (List.Chain' (· < ·) (([] : List (Nat × SentPacket)).map Prod.fst) →
        (∀ k ∈ ([] : List (Nat × SentPacket)).map Prod.fst, k ≤ 0) →
        List.Chain' (· < ·)
          ((sentPacket ⟨0, 0, 0, []⟩ ⟨1, false, 0⟩).2.packetHistory.map Prod.fst) ∧
        ∀ k ∈ (sentPacket ⟨0, 0, 0, []⟩ ⟨1, false, 0⟩).2.packetHistory.map Prod.fst,
          k ≤ (sentPacket ⟨0, 0, 0, []⟩ ⟨1, false, 0⟩).2.lastSentPacketNumber)) :=
  sentPacket_no_packetNumber_reuse ⟨0, 0, 0, []⟩ ⟨1, false, 0⟩

/-! ### Packet packer (src/packet_packer.go) -/

/-- Frames handled by the packer: a STOP_WAITING frame, a stream frame popped
from the `streamFramer`, a BLOCKED frame, or another control frame. The
`minLen` fields carry the frame's `MinLength`; `control none` models a control
frame whose `MinLength` call returns an error. -/
inductive PackerFrame where
  | stopWaiting (minLen : Nat)
  | streamF (f : StreamFrame)
  | blocked (minLen : Nat)
  | control (minLen : Option Nat)
  deriving DecidableEq, Repr

/-- `Frame.MinLength`. -/
def PackerFrame.minLength : PackerFrame → Option Nat
  | .stopWaiting m => some m
  | .streamF _ => some 0
  | .blocked m => some m
  | .control m => m

/-- Whether a frame is a `*frames.StopWaitingFrame`. -/
def PackerFrame.isStopWaiting : PackerFrame → Bool
  | .stopWaiting _ => true
  | _ => false

/-- The `packetPacker` state relevant to frame assembly. `controlFrames` is
kept most-recently-queued first: Go appends at the end of the slice and pops
from the end, so the Go slice read back-to-front is this list. `stopWaiting`
holds the `MinLength` of the queued STOP_WAITING frame, if any. -/
structure PacketPacker where
  controlFrames : List PackerFrame
  stopWaiting : Option Nat
  deriving DecidableEq, Repr

/-- `packetPacker.QueueControlFrameForNextPacket` (src/packet_packer.go:212-218). -/
def queueControlFrameForNextPacket (s : PacketPacker) (f : PackerFrame) : PacketPacker :=
  match f with
  | .stopWaiting m => { s with stopWaiting := some m }
  | f => { s with controlFrames := f :: s.controlFrames }

/-- The control-frame loop of `packetPacker.composeNextPacket`
(src/packet_packer.go:168-180): pop frames while they fit; a `MinLength` error
aborts (first component `some ()`), leaving the erroring frame and everything
below it in the stack. Returns (error?, remaining stack, payload length,
payload). -/
def composeControlLoop (maxFrameSize : Nat) :
    List PackerFrame → Nat → List PackerFrame →
    Option Unit × List PackerFrame × Nat × List PackerFrame
  | [], payloadLength, payload => (none, [], payloadLength, payload)
  | f :: rest, payloadLength, payload =>
      match f.minLength with
      | none => (some (), f :: rest, payloadLength, payload)
      | some m =>
          if maxFrameSize < payloadLength + m then
            (none, f :: rest, payloadLength, payload)
          else
            composeControlLoop maxFrameSize rest (payloadLength + m) (payload ++ [f])

/-- `packetPacker.composeNextPacket` (src/packet_packer.go:158-210). The
`streamFramer` pops are supplied as inputs: `fs` is what
`PopStreamFrames` returned (the `DataLenPresent` adjustment does not affect the
frame list) and `blockedPopped` the `MinLength`s of the BLOCKED frames popped
afterwards, which are queued as control frames for later packets. -/
def composeNextPacket (maxFrameSize : Nat) (canSendStreamFrames : Bool)
    (s : PacketPacker) (fs : List StreamFrame) (blockedPopped : List Nat) :
    Option Unit × List PackerFrame × PacketPacker :=
  let control0 := match s.stopWaiting with
    | some m => PackerFrame.stopWaiting m :: s.controlFrames
    | none => s.controlFrames
  match composeControlLoop maxFrameSize control0 0 [] with
  | (some _, remaining, _, _) =>
      (some (), [], { s with controlFrames := remaining })
  | (none, remaining, payloadLength, payload) =>
      if maxFrameSize < payloadLength then
        (some (), [], { s with controlFrames := remaining })
      else if canSendStreamFrames = false then
        (none, payload, { s with controlFrames := remaining })
      else
        (none, payload ++ fs.map .streamF,
          { s with controlFrames := (blockedPopped.reverse.map .blocked) ++ remaining })

/-- The final checks of `packetPacker.packPacket` (src/packet_packer.go:134-143):
drop empty payloads, drop a single-frame payload while a STOP_WAITING frame is
queued, otherwise clear `stopWaiting` and emit the packet. -/
def checkAndFinish (s : PacketPacker) (payload : List PackerFrame) :
    Option Unit × Option (List PackerFrame) × PacketPacker :=
  if payload.length = 0 then (none, none, s)
  else if payload.length = 1 ∧ s.stopWaiting.isSome then (none, none, s)
  else (none, some payload, { s with stopWaiting := none })

/-- `packetPacker.packPacket` (src/packet_packer.go:82-156). Inputs stand for
the packer's collaborators: `retransmitFrames` is
`handshakePacketToRetransmit.Frames` when this is a handshake retransmission,
`hasCrypto`/`cryptoFrame` model `HasCryptoStreamFrame`/`PopCryptoStreamFrame`,
`canSend` is `canSendData(encLevel)`, and `fs`/`blockedPopped` feed
`composeNextPacket`. Sealer lookup and header serialization errors return no
packet without touching the frame state and are not modelled. Returns
(error?, packed frame list?, new state). -/
def packPacket (s : PacketPacker) (retransmitFrames : Option (List PackerFrame))
    (hasCrypto : Bool) (cryptoFrame : StreamFrame) (canSend : Bool)
    (maxFrameSize : Nat) (fs : List StreamFrame) (blockedPopped : List Nat) :
    Option Unit × Option (List PackerFrame) × PacketPacker :=
  match retransmitFrames with
  | some rf =>
      match s.stopWaiting with
      | none => (some (), none, s) -- "Handshake retransmissions must contain a StopWaitingFrame"
      | some m => checkAndFinish s (PackerFrame.stopWaiting m :: rf)
  | none =>
      if hasCrypto then
        checkAndFinish s [PackerFrame.streamF cryptoFrame]
      else
        match composeNextPacket maxFrameSize canSend s fs blockedPopped with
        | (some _, _, s') => (some (), none, s')
        | (none, payload, s') => checkAndFinish s' payload

lemma composeControlLoop_noStopWaiting (maxFrameSize : Nat) :
    ∀ (stack : List PackerFrame) (payloadLength : Nat) (payload : List PackerFrame),
    (∀ f ∈ stack, f.isStopWaiting = false) →
    (∀ f ∈ payload, f.isStopWaiting = false) →
    (∀ f ∈ (composeControlLoop maxFrameSize stack payloadLength payload).2.1,
      f.isStopWaiting = false) ∧
    (∀ f ∈ (composeControlLoop maxFrameSize stack payloadLength payload).2.2.2,
      f.isStopWaiting = false) := by
  intro stack
  induction stack with
  | nil =>
      intro payloadLength payload _ hpl
      exact ⟨by simp [composeControlLoop], by simpa [composeControlLoop] using hpl⟩
  | cons f rest ih =>
      intro payloadLength payload hst hpl
      simp only [composeControlLoop]
      cases hm : f.minLength with
      | none =>
          exact ⟨hst, hpl⟩
      | some m =>
          by_cases hfit : maxFrameSize < payloadLength + m
          · simp only [if_pos hfit]
            exact ⟨hst, hpl⟩
          · simp only [if_neg hfit]
            refine ih (payloadLength + m) (payload ++ [f])
              (fun g hg => hst g (.tail f hg)) ?_
            intro g hg
            rcases List.mem_append.mp hg with hg | hg
            · exact hpl g hg
            · simp only [List.mem_singleton] at hg
              subst hg
              exact hst g (.head rest)

lemma composeControlLoop_remaining_noStopWaiting (maxFrameSize : Nat) :
    ∀ (stack : List PackerFrame) (payloadLength : Nat) (payload : List PackerFrame),
    (∀ f ∈ stack, f.isStopWaiting = false) →
    (∀ f ∈ (composeControlLoop maxFrameSize stack payloadLength payload).2.1,
      f.isStopWaiting = false) := by
  intro stack
  induction stack with
  | nil =>
      intro payloadLength payload _
      simp [composeControlLoop]
  | cons f rest ih =>
      intro payloadLength payload hst
      simp only [composeControlLoop]
      cases hm : f.minLength with
      | none => exact hst
      | some m =>
          by_cases hfit : maxFrameSize < payloadLength + m
          · simp only [if_pos hfit]
            exact hst
          · simp only [if_neg hfit]
            exact ih (payloadLength + m) (payload ++ [f]) (fun g hg => hst g (.tail f hg))

lemma checkAndFinish_spec (s : PacketPacker) (payload : List PackerFrame) :
    (∀ pl, (checkAndFinish s payload).2.1 = some pl →
      pl = payload ∧ payload ≠ [] ∧ ¬(payload.length = 1 ∧ s.stopWaiting.isSome)) ∧
    (checkAndFinish s payload).2.2.controlFrames = s.controlFrames := by
  unfold checkAndFinish
  by_cases h0 : payload.length = 0
  · rw [if_pos h0]
    exact ⟨fun pl hpl => by simp at hpl, rfl⟩
  · by_cases h1 : payload.length = 1 ∧ s.stopWaiting.isSome
    · rw [if_neg h0, if_pos h1]
      exact ⟨fun pl hpl => by simp at hpl, rfl⟩
    · rw [if_neg h0, if_neg h1]
      refine ⟨?_, rfl⟩
      intro pl hpl
      simp only [Option.some.injEq] at hpl
      subst hpl
      exact ⟨rfl, fun hnil => h0 (by simp [hnil]), h1⟩

/-- The two conclusions of C8 for a result that equals a `checkAndFinish`
call: provided every frame of the candidate payload that could stand alone is
not a STOP_WAITING frame unless `stopWaiting` is still set, the emitted packet
is nonempty and not a lone STOP_WAITING frame. -/
lemma checkAndFinish_conclusion (s' : PacketPacker) (pl0 : List PackerFrame)
    (res : Option Unit × Option (List PackerFrame) × PacketPacker)
    (hres : res = checkAndFinish s' pl0)
    (hsafe : s'.stopWaiting.isSome = true ∨ ∀ f ∈ pl0, f.isStopWaiting = false) :
    (∀ pl, res.2.1 = some pl →
      pl ≠ [] ∧ ∀ m, pl ≠ [PackerFrame.stopWaiting m]) ∧
    res.2.2.controlFrames = s'.controlFrames := by
  subst hres
  obtain ⟨hemit, hctrl⟩ := checkAndFinish_spec s' pl0
  refine ⟨?_, hctrl⟩
  intro pl hpl
  obtain ⟨hpl0, hne, hnot1⟩ := hemit pl hpl
  subst hpl0
  refine ⟨hne, ?_⟩
  intro m hcontra
  rcases hsafe with hsafe | hsafe
  · exact hnot1 ⟨by simp [hcontra], hsafe⟩
  · have : PackerFrame.stopWaiting m ∈ pl := by rw [hcontra]; simp
    have := hsafe _ this
    simp [PackerFrame.isStopWaiting] at this

/-- C8: provided no STOP_WAITING frame sits in the control-frame queue (the
packer routes STOP_WAITING frames to the dedicated `stopWaiting` slot, so this
is an invariant, re-established below) and the queued STOP_WAITING frame fits
in a packet, `packPacket` never returns a packet with an empty frame list and
never returns a packet whose only frame is a STOP_WAITING frame; moreover the
control-frame queue again contains no STOP_WAITING frame afterwards. -/
theorem packPacket_min_one_frame_no_lone_stopWaiting
    (s : PacketPacker) (retransmitFrames : Option (List PackerFrame))
    (hasCrypto : Bool) (cryptoFrame : StreamFrame) (canSend : Bool)
    (maxFrameSize : Nat) (fs : List StreamFrame) (blockedPopped : List Nat)
    (hinv : ∀ f ∈ s.controlFrames, f.isStopWaiting = false)
    (hfits : ∀ m, s.stopWaiting = some m → m ≤ maxFrameSize) :
    (∀ payload,
      (packPacket s retransmitFrames hasCrypto cryptoFrame canSend maxFrameSize
        fs blockedPopped).2.1 = some payload →
      payload ≠ [] ∧ ∀ m, payload ≠ [PackerFrame.stopWaiting m]) ∧
    (∀ f ∈ (packPacket s retransmitFrames hasCrypto cryptoFrame canSend maxFrameSize
        fs blockedPopped).2.2.controlFrames, f.isStopWaiting = false) := by
  cases retransmitFrames with
  | some rf =>
      cases hsw : s.stopWaiting with
      | none =>
          have hres : packPacket s (some rf) hasCrypto cryptoFrame canSend maxFrameSize
              fs blockedPopped = (some (), none, s) := by
            simp [packPacket, hsw]
          rw [hres]
          exact ⟨fun payload hp => by simp at hp, hinv⟩
      | some m =>
          have hres : packPacket s (some rf) hasCrypto cryptoFrame canSend maxFrameSize
              fs blockedPopped
              = checkAndFinish s (PackerFrame.stopWaiting m :: rf) := by
            simp [packPacket, hsw]
          obtain ⟨hemit, hctrl⟩ := checkAndFinish_conclusion s _ _ hres (by simp [hsw])
          rw [hctrl]
          exact ⟨hemit, hinv⟩
  | none =>
      cases hasCrypto with
      | true =>
          have hres : packPacket s none true cryptoFrame canSend maxFrameSize
              fs blockedPopped
              = checkAndFinish s [PackerFrame.streamF cryptoFrame] := by
            simp [packPacket]
          obtain ⟨hemit, hctrl⟩ := checkAndFinish_conclusion s _ _ hres
            (Or.inr (by intro f hf; simp at hf; subst hf; rfl))
          rw [hctrl]
          exact ⟨hemit, hinv⟩
      | false =>
          -- the composeNextPacket path; set up the control-frame loop result
          cases hsw : s.stopWaiting with
          | none =>
              rcases hcl : composeControlLoop maxFrameSize s.controlFrames 0 []
                with ⟨err, remaining, payloadLength, payload⟩
              have hrem : ∀ f ∈ remaining, f.isStopWaiting = false := by
                have := composeControlLoop_remaining_noStopWaiting maxFrameSize
                  s.controlFrames 0 [] hinv
                rw [hcl] at this
                exact this
              have hpayload : ∀ f ∈ payload, f.isStopWaiting = false := by
                have := composeControlLoop_noStopWaiting maxFrameSize
                  s.controlFrames 0 [] hinv (by simp)
                rw [hcl] at this
                exact this.2
              cases err with
              | some e =>
                  have hres : packPacket s none false cryptoFrame canSend maxFrameSize
                      fs blockedPopped
                      = (some (), none, { s with controlFrames := remaining }) := by
                    simp [packPacket, composeNextPacket, hsw, hcl]
                  rw [hres]
                  exact ⟨fun p hp => by simp at hp, hrem⟩
              | none =>
                  by_cases hbig : maxFrameSize < payloadLength
                  · have hres : packPacket s none false cryptoFrame canSend maxFrameSize
                        fs blockedPopped
                        = (some (), none, { s with controlFrames := remaining }) := by
                      simp [packPacket, composeNextPacket, hsw, hcl, hbig]
                    rw [hres]
                    exact ⟨fun p hp => by simp at hp, hrem⟩
                  · cases canSend with
                    | false =>
                        have hres : packPacket s none false cryptoFrame false maxFrameSize
                            fs blockedPopped
                            = checkAndFinish { s with controlFrames := remaining }
                                payload := by
                          simp [packPacket, composeNextPacket, hsw, hcl, hbig]
                        obtain ⟨hemit, hctrl⟩ := checkAndFinish_conclusion _ _ _ hres
                          (Or.inr hpayload)
                        rw [hctrl]
                        exact ⟨hemit, hrem⟩
                    | true =>
                        have hres : packPacket s none false cryptoFrame true maxFrameSize
                            fs blockedPopped
                            = checkAndFinish
                                { s with controlFrames :=
                                  (blockedPopped.reverse.map .blocked) ++ remaining }
                                (payload ++ fs.map .streamF) := by
                          simp [packPacket, composeNextPacket, hsw, hcl, hbig]
                        obtain ⟨hemit, hctrl⟩ := checkAndFinish_conclusion _ _ _ hres
                          (Or.inr (by
                            intro f hf
                            rcases List.mem_append.mp hf with hf | hf
                            · exact hpayload f hf
                            · rcases List.mem_map.mp hf with ⟨g, _, hg⟩
                              subst hg
                              rfl))
                        rw [hctrl]
                        refine ⟨hemit, ?_⟩
                        intro f hf
                        rcases List.mem_append.mp hf with hf | hf
                        · rcases List.mem_map.mp hf with ⟨g, _, hg⟩
                          subst hg
                          rfl
                        · exact hrem f hf
          | some m =>
              have hm : m ≤ maxFrameSize := hfits m hsw
              have hstep : composeControlLoop maxFrameSize
                  (PackerFrame.stopWaiting m :: s.controlFrames) 0 [] =
                  composeControlLoop maxFrameSize s.controlFrames m
                    [PackerFrame.stopWaiting m] := by
                simp only [composeControlLoop, PackerFrame.minLength]
                rw [if_neg (by omega)]
                norm_num
              rcases hcl : composeControlLoop maxFrameSize s.controlFrames m
                  [PackerFrame.stopWaiting m]
                with ⟨err, remaining, payloadLength, payload⟩
              have hrem : ∀ f ∈ remaining, f.isStopWaiting = false := by
                have := composeControlLoop_remaining_noStopWaiting maxFrameSize
                  s.controlFrames m [PackerFrame.stopWaiting m] hinv
                rw [hcl] at this
                exact this
              cases err with
              | some e =>
                  have hres : packPacket s none false cryptoFrame canSend maxFrameSize
                      fs blockedPopped
                      = (some (), none, { s with controlFrames := remaining }) := by
                    simp [packPacket, composeNextPacket, hsw, hstep, hcl]
                  rw [hres]
                  exact ⟨fun p hp => by simp at hp, hrem⟩
              | none =>
                  by_cases hbig : maxFrameSize < payloadLength
                  · have hres : packPacket s none false cryptoFrame canSend maxFrameSize
                        fs blockedPopped
                        = (some (), none, { s with controlFrames := remaining }) := by
                      simp [packPacket, composeNextPacket, hsw, hstep, hcl, hbig]
                    rw [hres]
                    exact ⟨fun p hp => by simp at hp, hrem⟩
                  · cases canSend with
                    | false =>
                        have hres : packPacket s none false cryptoFrame false maxFrameSize
                            fs blockedPopped
                            = checkAndFinish { s with controlFrames := remaining }
                                payload := by
                          simp [packPacket, composeNextPacket, hsw, hstep, hcl, hbig]
                        obtain ⟨hemit, hctrl⟩ := checkAndFinish_conclusion _ _ _ hres
                          (Or.inl (by simp [hsw]))
                        rw [hctrl]
                        exact ⟨hemit, hrem⟩
                    | true =>
                        have hres : packPacket s none false cryptoFrame true maxFrameSize
                            fs blockedPopped
                            = checkAndFinish
                                { s with controlFrames :=
                                  (blockedPopped.reverse.map .blocked) ++ remaining }
                                (payload ++ fs.map .streamF) := by
                          simp [packPacket, composeNextPacket, hsw, hstep, hcl, hbig]
                        obtain ⟨hemit, hctrl⟩ := checkAndFinish_conclusion _ _ _ hres
                          (Or.inl (by simp [hsw]))
                        rw [hctrl]
                        refine ⟨hemit, ?_⟩
                        intro f hf
                        rcases List.mem_append.mp hf with hf | hf
                        · rcases List.mem_map.mp hf with ⟨g, _, hg⟩
                          subst hg
                          rfl
                        · exact hrem f hf

/-- C8 witness: a packer holding one ACK-like control frame and a STOP_WAITING
frame emits a packet with both frames (never the STOP_WAITING frame alone). -/
theorem packPacket_min_one_frame_no_lone_stopWaiting_witness :
    (∀ payload,
      (packPacket ⟨[PackerFrame.control (some 4)], some 6⟩ none false
        ⟨1, 0, [], false⟩ true 1000 [] []).2.1 = some payload →
      payload ≠ [] ∧ ∀ m, payload ≠ [PackerFrame.stopWaiting m]) ∧
    (∀ f ∈ (packPacket ⟨[PackerFrame.control (some 4)], some 6⟩ none false
        ⟨1, 0, [], false⟩ true 1000 [] []).2.2.controlFrames,
      f.isStopWaiting = false) :=
  packPacket_min_one_frame_no_lone_stopWaiting
    ⟨[PackerFrame.control (some 4)], some 6⟩ none false ⟨1, 0, [], false⟩ true 1000 [] []
    (by decide) (by intro m hm; cases hm; decide)

/-! ### Connection parameters (src/unnamed/part_003, ConnectionParametersManager) -/

/-- Handshake tags handled by `ConnectionParametersManager.SetFromMap`. -/
inductive HandshakeTag where
  | mspc
  | tcid
  | icsl
  | sfcw
  | cfcw
  | otherTag (code : Nat)
  deriving DecidableEq, Repr

/-- One nanosecond-denominated second (`time.Second`); durations are modelled
as natural numbers of nanoseconds. -/
def nanosecond : Nat := 1
def asSecond : Nat := 1000000000

/-- `handshake.ConnectionParametersManager` (src/unnamed/part_003:240-249);
the `params` map is modelled as an association list. -/
structure ConnectionParametersManager where
  params : List (HandshakeTag × List Nat)
  idleConnectionStateLifetime : Nat
  sendStreamFlowControlWindow : Nat
  sendConnectionFlowControlWindow : Nat
  receiveStreamFlowControlWindow : Nat
  receiveConnectionFlowControlWindow : Nat
  deriving DecidableEq, Repr

/-- Map insert-or-overwrite for the `params` map. -/
def updateTag (ps : List (HandshakeTag × List Nat)) (k : HandshakeTag)
    (v : List Nat) : List (HandshakeTag × List Nat) :=
  if (ps.lookup k).isSome then
    ps.map (fun p => if p.1 = k then (k, v) else p)
  else ps ++ [(k, v)]

/-- `negotiateIdleConnectionStateLifetime` (src/unnamed/part_003:301-304):
`utils.MinDuration(clientValue, protocol.MaxIdleConnectionStateLifetime)`.
The protocol constant is not under src/ and is taken as a parameter. -/
def negotiateIdleConnectionStateLifetime (maxIdle clientValue : Nat) : Nat :=
  min clientValue maxIdle

/-- `ConnectionParametersManager.SetFromMap` (src/unnamed/part_003:269-299),
processing the entries in sequence (Go iterates the map in unspecified order;
the claims here use single-entry maps). A `utils.ReadUint32` failure aborts
with an error, as in the source. -/
def setFromMap (maxIdle : Nat) (h : ConnectionParametersManager) :
    List (HandshakeTag × List Nat) → Except Unit ConnectionParametersManager
  | [] => .ok h
  | (key, value) :: rest =>
      match key with
      | .mspc => setFromMap maxIdle { h with params := updateTag h.params key value } rest
      | .tcid => setFromMap maxIdle { h with params := updateTag h.params key value } rest
      | .icsl =>
          match readUint32 value with
          | none => .error ()
          | some (clientValue, _) =>
              setFromMap maxIdle
                { h with idleConnectionStateLifetime :=
                    negotiateIdleConnectionStateLifetime maxIdle (clientValue * asSecond) }
                rest
      | .sfcw =>
          match readUint32 value with
          | none => .error ()
          | some (v, _) =>
              setFromMap maxIdle { h with sendStreamFlowControlWindow := v } rest
      | .cfcw =>
          match readUint32 value with
          | none => .error ()
          | some (v, _) =>
              setFromMap maxIdle { h with sendConnectionFlowControlWindow := v } rest
      | .otherTag _ => setFromMap maxIdle h rest

/-- Modelled from the spec: how the session uses the negotiated idle timeout is
not under src/; per the spec's transport-parameter table a value of 0 means the
idle timeout is disabled. -/
def idleTimeoutDisabled (d : Nat) : Prop := d = 0

/-- C9: processing the peer's idle-timeout parameter (tag ICSL, a uint32
number of seconds) sets the negotiated idle timeout to the minimum of the
peer's value and the local maximum, and a peer value of 0 yields 0, which
disables the idle timeout. -/
theorem setFromMap_idleTimeout_min (maxIdle : Nat)
    (h : ConnectionParametersManager) (v : Nat) (hv : v < 2 ^ 32) :
    setFromMap maxIdle h [(.icsl, writeUint32 v)]
      = .ok { h with idleConnectionStateLifetime := min (v * asSecond) maxIdle } ∧
    (v = 0 → idleTimeoutDisabled (min (v * asSecond) maxIdle)) := by
  constructor
  · have hr : readUint32 (writeUint32 v) = some (v, []) := by
      have := readUint32_writeUint32 v [] hv
      simpa using this
    simp [setFromMap, hr, negotiateIdleConnectionStateLifetime]
  · intro h0
    subst h0
    simp [idleTimeoutDisabled]

/-- C9 witness: a peer value of 0 disables the idle timeout. -/
theorem setFromMap_idleTimeout_min_witness :
    setFromMap (30 * asSecond) ⟨[], 30 * asSecond, 0, 0, 0, 0⟩ [(.icsl, writeUint32 0)]
      = .ok { (⟨[], 30 * asSecond, 0, 0, 0, 0⟩ : ConnectionParametersManager) with
          idleConnectionStateLifetime := min (0 * asSecond) (30 * asSecond) } ∧
    ((0 : Nat) = 0 → idleTimeoutDisabled (min (0 * asSecond) (30 * asSecond))) :=
  setFromMap_idleTimeout_min (30 * asSecond) ⟨[], 30 * asSecond, 0, 0, 0, 0⟩ 0 (by decide)

/-! ### Crypto setup (src/unnamed/part_003, CryptoSetup) -/

/-- A `crypto.AEAD` collaborator: `Open` may fail, `Seal` cannot. -/
structure ModelAEAD where
  aeadOpen : Nat → List Nat → List Nat → Option (List Nat)
  aeadSeal : Nat → List Nat → List Nat → List Nat

/-- The `CryptoSetup` fields driving `Open`/`Seal`
(src/unnamed/part_003:46-62). -/
structure CryptoSetupState where
  secureAEAD : Option ModelAEAD
  forwardSecureAEAD : Option ModelAEAD
  receivedForwardSecurePacket : Bool
  receivedSecurePacket : Bool

/-- The secure/null tail of `CryptoSetup.Open` (src/unnamed/part_003:136-146),
reached only when no forward-secure attempt is conclusive. -/
def cryptoOpenSecure (null : ModelAEAD) (s : CryptoSetupState) (pn : Nat)
    (ad ct : List Nat) : Option (List Nat) × CryptoSetupState :=
  match s.secureAEAD with
  | some sec =>
      match sec.aeadOpen pn ad ct with
      | some res => (some res, { s with receivedSecurePacket := true })
      | none =>
          if s.receivedSecurePacket then (none, s)
          else (null.aeadOpen pn ad ct, s)
  | none => (null.aeadOpen pn ad ct, s)

/-- `CryptoSetup.Open` (src/unnamed/part_003:122-147): try the forward-secure
AEAD first; on success record that a forward-secure packet was received; on
failure fall through to the secure/null AEADs only if no forward-secure packet
was ever received. `none` as first component models the error return. -/
def cryptoOpen (null : ModelAEAD) (s : CryptoSetupState) (pn : Nat)
    (ad ct : List Nat) : Option (List Nat) × CryptoSetupState :=
  match s.forwardSecureAEAD with
  | some fsA =>
      match fsA.aeadOpen pn ad ct with
      | some res => (some res, { s with receivedForwardSecurePacket := true })
      | none =>
          if s.receivedForwardSecurePacket then (none, s)
          else cryptoOpenSecure null s pn ad ct
  | none => cryptoOpenSecure null s pn ad ct

/-- `CryptoSetup.Seal` (src/unnamed/part_003:150-161); the result is `none`
only for the nil-pointer dereference of sealing forward-securely with no
forward-secure AEAD derived (unreachable from the initial state). -/
def cryptoSeal (null : ModelAEAD) (s : CryptoSetupState) (pn : Nat)
    (ad pt : List Nat) : Option (List Nat) :=
  if s.receivedForwardSecurePacket then
    match s.forwardSecureAEAD with
    | some fsA => some (fsA.aeadSeal pn ad pt)
    | none => none
  else
    match s.secureAEAD with
    | some sec => some (sec.aeadSeal pn ad pt)
    | none => some (null.aeadSeal pn ad pt)

/-- Events that mutate the crypto state. `HandleCryptoStream`
(src/unnamed/part_003:83-119) runs `handleCHLO` at most once (both its success
and its failure end the crypto-stream loop), tracked by the Boolean flag:
`chloSuccess` installs both AEADs (src/unnamed/part_003:204-212), `chloFailFirst`
models the first key derivation failing (leaving `secureAEAAD` nil),
`chloFailSecond` the second failing (leaving `forwardSecureAEAD` nil), and
`openPacket` is a call to `Open`. -/
inductive CryptoEvent where
  | chloSuccess (sec fsA : ModelAEAD)
  | chloFailFirst
  | chloFailSecond (sec : ModelAEAD)
  | openPacket (pn : Nat) (ad ct : List Nat)

/-- One step of the crypto state machine; the Boolean records whether
`handleCHLO` has already run. -/
def cryptoStep (null : ModelAEAD) :
    CryptoSetupState × Bool → CryptoEvent → CryptoSetupState × Bool
  | (s, chloDone), .chloSuccess sec fsA =>
      if chloDone then (s, chloDone)
      else ({ s with secureAEAD := some sec, forwardSecureAEAD := some fsA }, true)
  | (s, chloDone), .chloFailFirst =>
      if chloDone then (s, chloDone)
      else ({ s with secureAEAD := none }, true)
  | (s, chloDone), .chloFailSecond sec =>
      if chloDone then (s, chloDone)
      else ({ s with secureAEAD := some sec, forwardSecureAEAD := none }, true)
  | (s, chloDone), .openPacket pn ad ct => ((cryptoOpen null s pn ad ct).2, chloDone)

/-- States reachable from a fresh `CryptoSetup` (`NewCryptoSetup` leaves both
AEADs nil and both received flags unset). -/
inductive CryptoReachable (null : ModelAEAD) : CryptoSetupState × Bool → Prop where
  | init : CryptoReachable null (⟨none, none, false, false⟩, false)
  | step (p : CryptoSetupState × Bool) (e : CryptoEvent) :
      CryptoReachable null p → CryptoReachable null (cryptoStep null p e)

lemma cryptoOpen_preserves (null : ModelAEAD) (s : CryptoSetupState) (pn : Nat)
    (ad ct : List Nat) :
    (cryptoOpen null s pn ad ct).2.forwardSecureAEAD = s.forwardSecureAEAD ∧
    (cryptoOpen null s pn ad ct).2.secureAEAD = s.secureAEAD ∧
    ((cryptoOpen null s pn ad ct).2.receivedForwardSecurePacket = true →
      s.receivedForwardSecurePacket = true ∨ s.forwardSecureAEAD.isSome = true) := by
  have hsecure : ∀ t : CryptoSetupState,
      (cryptoOpenSecure null t pn ad ct).2.forwardSecureAEAD = t.forwardSecureAEAD ∧
      (cryptoOpenSecure null t pn ad ct).2.secureAEAD = t.secureAEAD ∧
      ((cryptoOpenSecure null t pn ad ct).2.receivedForwardSecurePacket = true →
        t.receivedForwardSecurePacket = true) := by
    intro t
    refine ⟨?_, ?_, ?_⟩ <;>
      · unfold cryptoOpenSecure
        cases hsec : t.secureAEAD with
        | some sec =>
            cases hsopen : sec.aeadOpen pn ad ct with
            | some res => simp [hsec, hsopen]
            | none =>
                by_cases hsflag : t.receivedSecurePacket = true
                · simp [hsec, hsopen, if_pos hsflag]
                · simp [hsec, hsopen, if_neg hsflag]
        | none => simp [hsec]
  cases hfs : s.forwardSecureAEAD with
  | some fsA =>
      cases hopen : fsA.aeadOpen pn ad ct with
      | some res =>
          refine ⟨?_, ?_, ?_⟩ <;> simp [cryptoOpen, hfs, hopen]
      | none =>
          obtain ⟨h1, h2, h3⟩ := hsecure s
          by_cases hflag : s.receivedForwardSecurePacket = true
          · refine ⟨?_, ?_, ?_⟩ <;> simp [cryptoOpen, hfs, hopen, if_pos hflag]
          · refine ⟨?_, ?_, ?_⟩ <;>
              simp only [cryptoOpen, hfs, hopen, if_neg hflag]
            · exact h1.trans hfs
            · exact h2
            · exact fun hf => Or.inl (h3 hf)
  | none =>
      obtain ⟨h1, h2, h3⟩ := hsecure s
      refine ⟨?_, ?_, ?_⟩ <;> simp only [cryptoOpen, hfs]
      · exact h1.trans hfs
      · exact h2
      · exact fun hf => Or.inl (h3 hf)

lemma cryptoReachable_invariant (null : ModelAEAD) (p : CryptoSetupState × Bool)
    (hreach : CryptoReachable null p) :
    (p.1.forwardSecureAEAD.isSome = true → p.2 = true) ∧
    (p.1.receivedForwardSecurePacket = true → p.1.forwardSecureAEAD.isSome = true) := by
  induction hreach with
  | init => simp
  | step q e ih ihinv =>
      obtain ⟨ih1, ih2⟩ := ihinv
      obtain ⟨s, chloDone⟩ := q
      cases e with
      | chloSuccess sec fsA =>
          by_cases hdone : chloDone = true
          · subst hdone
            exact ⟨fun _ => rfl, ih2⟩
          · have hd : chloDone = false := by simpa using hdone
            subst hd
            exact ⟨fun _ => rfl, fun _ => rfl⟩
      | chloFailFirst =>
          by_cases hdone : chloDone = true
          · subst hdone
            exact ⟨fun _ => rfl, ih2⟩
          · have hd : chloDone = false := by simpa using hdone
            subst hd
            exact ⟨fun _ => rfl, ih2⟩
      | chloFailSecond sec =>
          by_cases hdone : chloDone = true
          · subst hdone
            exact ⟨fun _ => rfl, ih2⟩
          · have hd : chloDone = false := by simpa using hdone
            subst hd
            exact ⟨fun _ => rfl,
              fun hf => absurd (ih1 (ih2 hf)) Bool.false_ne_true⟩
      | openPacket pn ad ct =>
          obtain ⟨hfseq, _, hflagimp⟩ := cryptoOpen_preserves null s pn ad ct
          refine ⟨?_, ?_⟩
          · intro hf
            have hx : (cryptoOpen null s pn ad ct).2.forwardSecureAEAD.isSome = true := hf
            rw [hfseq] at hx
            exact ih1 hx
          · intro hf
            have hflag' : (cryptoOpen null s pn ad ct).2.receivedForwardSecurePacket
                = true := hf
            show (cryptoOpen null s pn ad ct).2.forwardSecureAEAD.isSome = true
            rw [hfseq]
            rcases hflagimp hflag' with hh | hh
            · exact ih2 hh
            · exact hh

/-- C10: in any reachable crypto state that has successfully decrypted a
forward-secure packet, the forward-secure AEAD is installed, `Open` consults
only it (success re-records the flag; failure is returned as an error with the
state unchanged, never retried at the secure or null level), the
forward-secure flag never goes back down, and `Seal` uses the forward-secure
AEAD. -/
theorem cryptoSetup_forwardSecure_monotone (null : ModelAEAD)
    (p : CryptoSetupState × Bool) (hreach : CryptoReachable null p)
    (hflag : p.1.receivedForwardSecurePacket = true) :
    ∃ fsA, p.1.forwardSecureAEAD = some fsA ∧
      (∀ pn ad ct, cryptoOpen null p.1 pn ad ct =
        match fsA.aeadOpen pn ad ct with
        | some res => (some res, { p.1 with receivedForwardSecurePacket := true })
        | none => (none, p.1)) ∧
      (∀ pn ad ct,
        (cryptoOpen null p.1 pn ad ct).2.receivedForwardSecurePacket = true) ∧
      (∀ pn ad pt, cryptoSeal null p.1 pn ad pt = some (fsA.aeadSeal pn ad pt)) := by
  obtain ⟨_, hinv2⟩ := cryptoReachable_invariant null p hreach
  obtain ⟨fsA, hfs⟩ := Option.isSome_iff_exists.mp (hinv2 hflag)
  refine ⟨fsA, hfs, ?_, ?_, ?_⟩
  · intro pn ad ct
    simp only [cryptoOpen, hfs]
    cases hopen : fsA.aeadOpen pn ad ct with
    | some res => rfl
    | none => rw [if_pos hflag]
  · intro pn ad ct
    simp only [cryptoOpen, hfs]
    cases hopen : fsA.aeadOpen pn ad ct with
    | some res => rfl
    | none =>
        rw [if_pos hflag]
        exact hflag
  · intro pn ad pt
    simp [cryptoSeal, hflag, hfs]

/-- C10 witness: derive keys, decrypt one forward-secure packet, and apply the
theorem at the resulting reachable state. -/
theorem cryptoSetup_forwardSecure_monotone_witness :
    ∃ fsA, (cryptoStep ⟨fun _ _ _ => none, fun _ _ pt => pt⟩
        (cryptoStep ⟨fun _ _ _ => none, fun _ _ pt => pt⟩
          (⟨none, none, false, false⟩, false)
          (.chloSuccess ⟨fun _ _ _ => none, fun _ _ pt => pt⟩
            ⟨fun _ _ ct => some ct, fun _ _ pt => pt⟩))
        (.openPacket 1 [] [7])).1.forwardSecureAEAD = some fsA ∧
      (∀ pn ad ct, cryptoOpen ⟨fun _ _ _ => none, fun _ _ pt => pt⟩
          (cryptoStep ⟨fun _ _ _ => none, fun _ _ pt => pt⟩
            (cryptoStep ⟨fun _ _ _ => none, fun _ _ pt => pt⟩
              (⟨none, none, false, false⟩, false)
              (.chloSuccess ⟨fun _ _ _ => none, fun _ _ pt => pt⟩
                ⟨fun _ _ ct => some ct, fun _ _ pt => pt⟩))
            (.openPacket 1 [] [7])).1 pn ad ct =
        match fsA.aeadOpen pn ad ct with
        | some res => (some res, { (cryptoStep ⟨fun _ _ _ => none, fun _ _ pt => pt⟩
            (cryptoStep ⟨fun _ _ _ => none, fun _ _ pt => pt⟩
              (⟨none, none, false, false⟩, false)
              (.chloSuccess ⟨fun _ _ _ => none, fun _ _ pt => pt⟩
                ⟨fun _ _ ct => some ct, fun _ _ pt => pt⟩))
            (.openPacket 1 [] [7])).1 with receivedForwardSecurePacket := true })
        | none => (none, (cryptoStep ⟨fun _ _ _ => none, fun _ _ pt => pt⟩
            (cryptoStep ⟨fun _ _ _ => none, fun _ _ pt => pt⟩
              (⟨none, none, false, false⟩, false)
              (.chloSuccess ⟨fun _ _ _ => none, fun _ _ pt => pt⟩
                ⟨fun _ _ ct => some ct, fun _ _ pt => pt⟩))
            (.openPacket 1 [] [7])).1)) ∧
      (∀ pn ad ct,
        (cryptoOpen ⟨fun _ _ _ => none, fun _ _ pt => pt⟩
          (cryptoStep ⟨fun _ _ _ => none, fun _ _ pt => pt⟩
            (cryptoStep ⟨fun _ _ _ => none, fun _ _ pt => pt⟩
              (⟨none, none, false, false⟩, false)
              (.chloSuccess ⟨fun _ _ _ => none, fun _ _ pt => pt⟩
                ⟨fun _ _ ct => some ct, fun _ _ pt => pt⟩))
            (.openPacket 1 [] [7])).1 pn ad ct).2.receivedForwardSecurePacket = true) ∧
      (∀ pn ad pt, cryptoSeal ⟨fun _ _ _ => none, fun _ _ pt => pt⟩
          (cryptoStep ⟨fun _ _ _ => none, fun _ _ pt => pt⟩
            (cryptoStep ⟨fun _ _ _ => none, fun _ _ pt => pt⟩
              (⟨none, none, false, false⟩, false)
              (.chloSuccess ⟨fun _ _ _ => none, fun _ _ pt => pt⟩
                ⟨fun _ _ ct => some ct, fun _ _ pt => pt⟩))
            (.openPacket 1 [] [7])).1 pn ad pt = some (fsA.aeadSeal pn ad pt)) :=
  cryptoSetup_forwardSecure_monotone ⟨fun _ _ _ => none, fun _ _ pt => pt⟩ _
    (.step _ (.openPacket 1 [] [7]) (.step _
      (.chloSuccess ⟨fun _ _ _ => none, fun _ _ pt => pt⟩
        ⟨fun _ _ ct => some ct, fun _ _ pt => pt⟩) .init))
    rfl

/-! ### Congestion controller (src/congestion/cubic_sender.go)

`cubicSender.RenoBeta` and the window cutback multiply in IEEE-754 single
precision (`float32`), so the arithmetic is modelled exactly: a `float32`
value is represented as an exact fraction `(numerator, denominator)` of
naturals, and every operation rounds to 24 significand bits with
round-to-nearest, ties-to-even, as the hardware does. -/

/-- `⌊log2 (a / b)⌋` for positive `a / b`, by doubling the smaller side;
`fuel` bounds the search (300 suffices for all values arising here). -/
def ilog2Aux : Nat → Nat → Nat → Int
  | 0, _, _ => 0
  | fuel + 1, a, b =>
      if b ≤ a then
        (if a < 2 * b then 0 else 1 + ilog2Aux fuel a (2 * b))
      else ilog2Aux fuel (2 * a) b - 1

/-- Round the nonnegative rational `a / b` to the nearest `float32`
(24-bit significand, round-to-nearest, ties-to-even), returned as an exact
fraction. Overflow and subnormals do not arise in the modelled ranges. -/
def roundF32 (a b : Nat) : Nat × Nat :=
  if a = 0 then (0, 1)
  else
    let e : Int := ilog2Aux 300 a b
    let s : Int := 23 - e
    let p : Nat × Nat := if 0 ≤ s then (a * 2 ^ s.toNat, b) else (a, b * 2 ^ (-s).toNat)
    let n := p.1 / p.2
    let r := p.1 % p.2
    let mi := if 2 * r < p.2 then n else if p.2 < 2 * r then n + 1
      else if n % 2 = 0 then n else n + 1
    if 0 ≤ e - 23 then (mi * 2 ^ (e - 23).toNat, 1) else (mi, 2 ^ (23 - e).toNat)

/-- `float32` multiplication. -/
def f32mul (x y : Nat × Nat) : Nat × Nat := roundF32 (x.1 * y.1) (x.2 * y.2)

/-- `float32` division. -/
def f32div (x y : Nat × Nat) : Nat × Nat := roundF32 (x.1 * y.2) (x.2 * y.1)

/-- `float32` addition. -/
def f32add (x y : Nat × Nat) : Nat × Nat := roundF32 (x.1 * y.2 + y.1 * x.2) (x.2 * y.2)

/-- `float32` subtraction (used only where the minuend is the larger). -/
def f32sub (x y : Nat × Nat) : Nat × Nat := roundF32 (x.1 * y.2 - y.1 * x.2) (x.2 * y.2)

/-- Conversion of an integer to `float32` (`float32(c.congestionWindow)`). -/
def f32ofNat (n : Nat) : Nat × Nat := roundF32 n 1

/-- Conversion of a nonnegative `float32` back to an integer
(`protocol.PacketNumber(...)`), truncating toward zero. -/
def f32trunc (x : Nat × Nat) : Nat := x.1 / x.2

/-- The Go constant `renoBeta float32 = 0.7` (src/congestion/cubic_sender.go:14). -/
def renoBetaConst : Nat × Nat := roundF32 7 10

/-- `cubicSender.RenoBeta` (src/congestion/cubic_sender.go:194-200):
`(float32(numConnections) - 1. + renoBeta) / float32(numConnections)`,
left-associated, each operation in single precision. -/
def renoBetaF32 (numConnections : Nat) : Nat × Nat :=
  f32div (f32add (f32sub (f32ofNat numConnections) (f32ofNat 1)) renoBetaConst)
    (f32ofNat numConnections)

/-- The Reno branch of the window cutback
(src/congestion/cubic_sender.go:179):
`protocol.PacketNumber(float32(c.congestionWindow) * c.RenoBeta())`. -/
def renoCwndAfterLoss (numConnections cwnd : Nat) : Nat :=
  f32trunc (f32mul (f32ofNat cwnd) (renoBetaF32 numConnections))

/-- `protocol.DefaultTCPMSS` (value from the protocol package, not under
src/); only used in the slow-start statistics below. -/
def defaultTCPMSS : Nat := 1460

/-- `connectionStats` (slow-start loss statistics). -/
structure ConnectionStats where
  slowstartPacketsLost : Nat
  slowstartBytesLost : Nat
  deriving DecidableEq, Repr

/-- `congestion.cubicSender` (src/congestion/cubic_sender.go:17-59), the
fields read or written by `onPacketLost`. The congestion window and thresholds
are packet counts, as in the source. -/
structure CubicSender where
  largestSentPacketNumber : Nat
  largestAckedPacketNumber : Nat
  largestSentAtLastCutback : Nat
  congestionWindow : Nat
  slowstartThreshold : Nat
  lastCutbackExitedSlowstart : Bool
  slowStartLargeReduction : Bool
  minCongestionWindow : Nat
  maxTCPCongestionWindow : Nat
  numConnections : Nat
  congestionWindowCount : Nat
  reno : Bool
  stats : ConnectionStats
  deriving DecidableEq, Repr

/-- `cubicSender.onPacketLost` (src/congestion/cubic_sender.go:154-192).
`cubicAfterLoss` stands for `cubic.CongestionWindowAfterPacketLoss` (the Cubic
collaborator is not under src/ and is unused in Reno mode); the PRR
sub-controller calls do not touch the fields modelled here. -/
def onPacketLost (cubicAfterLoss : Nat → Nat) (c : CubicSender)
    (packetNumber lostBytes _bytesInFlight : Nat) : CubicSender :=
  if packetNumber ≤ c.largestSentAtLastCutback then
    if c.lastCutbackExitedSlowstart then
      let stats' : ConnectionStats :=
        ⟨c.stats.slowstartPacketsLost + 1, c.stats.slowstartBytesLost + lostBytes⟩
      let c := { c with stats := stats' }
      if c.slowStartLargeReduction then
        let cw :=
          if stats'.slowstartPacketsLost = 1 ∨
              stats'.slowstartBytesLost / defaultTCPMSS >
                (stats'.slowstartBytesLost - lostBytes) / defaultTCPMSS then
            max (c.congestionWindow - 1) c.minCongestionWindow
          else c.congestionWindow
        { c with congestionWindow := cw, slowstartThreshold := cw }
      else c
    else c
  else
    let c := { c with
      lastCutbackExitedSlowstart := decide (c.congestionWindow < c.slowstartThreshold) }
    let cw1 :=
      if c.slowStartLargeReduction ∧ c.congestionWindow < c.slowstartThreshold then
        c.congestionWindow - 1
      else if c.reno then
        renoCwndAfterLoss c.numConnections c.congestionWindow
      else
        cubicAfterLoss c.congestionWindow
    let cw2 := if cw1 < c.minCongestionWindow then c.minCongestionWindow else cw1
    { c with
      congestionWindow := cw2,
      slowstartThreshold := cw2,
      largestSentAtLastCutback := c.largestSentPacketNumber,
      congestionWindowCount := 0 }

/-- The cutback as the claim words it: `max(old_cwnd · β, min_cwnd)` with
`β = (numConnections - 1 + 0.7) / numConnections` in exact arithmetic, the
product floored to a whole packet count. -/
def specRenoCwndAfterLoss (numConnections cwnd minCwnd : Nat) : Nat :=
  max (cwnd * (10 * (numConnections - 1) + 7) / (10 * numConnections)) minCwnd

set_option maxRecDepth 10000 in
set_option maxHeartbeats 1000000 in
lemma renoCwndAfterLoss_eq_exact_upTo_200 :
    ∀ c ∈ List.range 201, ∀ n ∈ [1, 2],
      renoCwndAfterLoss n c = c * (10 * (n - 1) + 7) / (10 * n) := by
  decide

/-- C7: counterexample. At `numConnections = 1`, `congestionWindow = 5991867`
and `min_cwnd = 2`, a loss of packet 5 (sent after the cutback point 0) sets
the window to 4194307, while `max(⌊old_cwnd · β⌋, min_cwnd) = 4194306` with
exact `β = 0.7`: the code computes `float32(5991867) * 0.7f`, whose exact
value 4194306.8286… rounds up to the representable 4194307.0 (the `float32`
spacing at that magnitude is 0.5) before truncating. -/
theorem renoCutback_beta_counterexample :
    (onPacketLost id
        ⟨10, 0, 0, 5991867, 10000000, false, false, 2, 10000000, 1, 0, true, ⟨0, 0⟩⟩
        5 1000 0).congestionWindow = 4194307 ∧
    specRenoCwndAfterLoss 1 5991867 2 = 4194306 ∧
    (onPacketLost id
        ⟨10, 0, 0, 5991867, 10000000, false, false, 2, 10000000, 1, 0, true, ⟨0, 0⟩⟩
        5 1000 0).congestionWindow ≠ specRenoCwndAfterLoss 1 5991867 2 := by
  refine ⟨by decide, by decide, ?_⟩
  intro h
  rw [show specRenoCwndAfterLoss 1 5991867 2 = 4194306 from by decide] at h
  exact absurd ((show (onPacketLost id
      ⟨10, 0, 0, 5991867, 10000000, false, false, 2, 10000000, 1, 0, true, ⟨0, 0⟩⟩
      5 1000 0).congestionWindow = 4194307 from by decide).symm.trans h) (by decide)

/-- C7 (amended): in Reno mode with slow-start large reduction disabled (no
code in the source ever enables it), a loss of a packet sent after the last
cutback sets the congestion window to
`max(trunc(float32(old_cwnd) · RenoBeta), min_cwnd)` where `RenoBeta` is
`(numConnections - 1 + 0.7) / numConnections` evaluated in single precision —
which agrees with `max(⌊old_cwnd · β⌋, min_cwnd)` for exact `β` whenever
`old_cwnd ≤ 200` (it first differs at `old_cwnd = 5991867`) — sets ssthresh to
the new window and records the cutback point; a loss of a packet sent at or
before the last cutback leaves window, ssthresh and cutback point unchanged. -/
theorem onPacketLost_reno_cutback (cubicAfterLoss : Nat → Nat) (c : CubicSender)
    (packetNumber lostBytes bytesInFlight : Nat)
    (hreno : c.reno = true) (hsslr : c.slowStartLargeReduction = false) :
    (c.largestSentAtLastCutback < packetNumber →
      (onPacketLost cubicAfterLoss c packetNumber lostBytes bytesInFlight).congestionWindow
        = max (renoCwndAfterLoss c.numConnections c.congestionWindow)
            c.minCongestionWindow ∧
      (onPacketLost cubicAfterLoss c packetNumber lostBytes bytesInFlight).slowstartThreshold
        = (onPacketLost cubicAfterLoss c packetNumber lostBytes
            bytesInFlight).congestionWindow ∧
      (onPacketLost cubicAfterLoss c packetNumber lostBytes
          bytesInFlight).largestSentAtLastCutback = c.largestSentPacketNumber) ∧
    (packetNumber ≤ c.largestSentAtLastCutback →
      (onPacketLost cubicAfterLoss c packetNumber lostBytes bytesInFlight).congestionWindow
        = c.congestionWindow ∧
      (onPacketLost cubicAfterLoss c packetNumber lostBytes bytesInFlight).slowstartThreshold
        = c.slowstartThreshold ∧
      (onPacketLost cubicAfterLoss c packetNumber lostBytes
          bytesInFlight).largestSentAtLastCutback = c.largestSentAtLastCutback) ∧
    (∀ w ≤ 200, ∀ n, n = 1 ∨ n = 2 →
      max (renoCwndAfterLoss n w) c.minCongestionWindow
        = specRenoCwndAfterLoss n w c.minCongestionWindow) := by
  refine ⟨?_, ?_, ?_⟩
  · intro hafter
    have hnot : ¬ packetNumber ≤ c.largestSentAtLastCutback := by omega
    simp only [onPacketLost, if_neg hnot, hsslr, hreno, Bool.false_eq_true, false_and,
      if_false, eq_self_iff_true, if_true]
    refine ⟨?_, ?_, ?_⟩ <;> first
    | trivial
    | split <;> omega
  · intro hbefore
    simp only [onPacketLost, if_pos hbefore, hsslr]
    cases hlc : c.lastCutbackExitedSlowstart with
    | false => simp
    | true => simp
  · intro w hw n hn
    have hmem : w ∈ List.range 201 := List.mem_range.mpr (by omega)
    have hn' : n ∈ [1, 2] := by rcases hn with h | h <;> simp [h]
    have := renoCwndAfterLoss_eq_exact_upTo_200 w hmem n hn'
    simp only [specRenoCwndAfterLoss, this]

/-- C7 amended witness: a Reno sender with window 20 and one connection cuts
back to 14 packets on a fresh loss. -/
theorem onPacketLost_reno_cutback_witness :
    ((0 : Nat) < 5 →
      (onPacketLost id
          ⟨10, 0, 0, 20, 1000, false, false, 2, 1000, 1, 0, true, ⟨0, 0⟩⟩
          5 1000 0).congestionWindow = max (renoCwndAfterLoss 1 20) 2 ∧
      (onPacketLost id
          ⟨10, 0, 0, 20, 1000, false, false, 2, 1000, 1, 0, true, ⟨0, 0⟩⟩
          5 1000 0).slowstartThreshold
        = (onPacketLost id
          ⟨10, 0, 0, 20, 1000, false, false, 2, 1000, 1, 0, true, ⟨0, 0⟩⟩
          5 1000 0).congestionWindow ∧
      (onPacketLost id
          ⟨10, 0, 0, 20, 1000, false, false, 2, 1000, 1, 0, true, ⟨0, 0⟩⟩
          5 1000 0).largestSentAtLastCutback = 10) ∧
    ((5 : Nat) ≤ 0 →
      (onPacketLost id
          ⟨10, 0, 0, 20, 1000, false, false, 2, 1000, 1, 0, true, ⟨0, 0⟩⟩
          5 1000 0).congestionWindow = 20 ∧
      (onPacketLost id
          ⟨10, 0, 0, 20, 1000, false, false, 2, 1000, 1, 0, true, ⟨0, 0⟩⟩
          5 1000 0).slowstartThreshold = 1000 ∧
      (onPacketLost id
          ⟨10, 0, 0, 20, 1000, false, false, 2, 1000, 1, 0, true, ⟨0, 0⟩⟩
          5 1000 0).largestSentAtLastCutback = 0) ∧
    (∀ w ≤ 200, ∀ n, n = 1 ∨ n = 2 →
      max (renoCwndAfterLoss n w) 2 = specRenoCwndAfterLoss n w 2) :=
  onPacketLost_reno_cutback id
    ⟨10, 0, 0, 20, 1000, false, false, 2, 1000, 1, 0, true, ⟨0, 0⟩⟩
    5 1000 0 rfl rfl

end QuicGo
